import Mathlib

/-!
Verification of the multi-head attention kernel
(labml_nn/transformers/mha.py) against its natural-language specification.

Tensors are modelled as functions from `Fin`-typed indices to `ℝ`, with the
shape carried by the type.  The PyTorch modules become explicit parameter
records plus pure functions; operations that can raise at run time (the mask
shape assert, the broadcast legality of masked_fill, the output matmul's
dimension agreement) return `Option`, with `none` standing for the raised
error.  Dropout's Bernoulli draws are an explicit boolean-valued source.
-/

noncomputable section

open Finset

/-! ## Basic tensor operations -/

/-- nn.Linear: `y o = (∑ i, W o i * x i) + b o`.  A bias-free layer is the
same map with `b = 0`. -/
def linearMap (inF outF : ℕ) (W : Fin outF → Fin inF → ℝ) (b : Fin outF → ℝ)
    (x : Fin inF → ℝ) : Fin outF → ℝ :=
  fun o => (∑ i, W o i * x i) + b o

/-- Flat index of head `h`, intra-head feature `k`, in the row-major
`view(seq_len, batch_size, heads, d_k)` layout: the head index varies slower. -/
def headIdx {heads dK : ℕ} (h : Fin heads) (k : Fin dK) : Fin (heads * dK) :=
  ⟨h.1 * dK + k.1, by
    calc h.1 * dK + k.1 < h.1 * dK + dK := by omega
      _ = (h.1 + 1) * dK := by ring
      _ ≤ heads * dK := Nat.mul_le_mul_right dK h.isLt⟩

/-- The head-split reshape of `x.view(seq_len, batch_size, self.heads, self.d_k)`
restricted to one position: reinterpret a width-`heads*dK` vector as a
`heads × dK` array. -/
def splitHeads {heads dK : ℕ} (x : Fin (heads * dK) → ℝ) :
    Fin heads → Fin dK → ℝ :=
  fun h k => x (headIdx h k)

/-- Head component of a flat feature index (inverse of `headIdx`, first leg). -/
def unmergeHead {heads dK : ℕ} (f : Fin (heads * dK)) : Fin heads :=
  ⟨f.1 / dK, by
    have h0 : 0 < heads * dK := lt_of_le_of_lt (Nat.zero_le _) f.isLt
    have hdK : 0 < dK := by
      rcases Nat.eq_zero_or_pos dK with h | h
      · subst h; omega
      · exact h
    exact (Nat.div_lt_iff_lt_mul hdK).mpr f.isLt⟩

/-- Intra-head component of a flat feature index (inverse of `headIdx`,
second leg). -/
def unmergeDim {heads dK : ℕ} (f : Fin (heads * dK)) : Fin dK :=
  ⟨f.1 % dK, by
    have h0 : 0 < heads * dK := lt_of_le_of_lt (Nat.zero_le _) f.isLt
    have hdK : 0 < dK := by
      rcases Nat.eq_zero_or_pos dK with h | h
      · subst h; omega
      · exact h
    exact Nat.mod_lt _ hdK⟩

/-- The head-concatenation reshape of `x.reshape(seq_len, batch_size, -1)`
restricted to one position: flatten a `heads × dK` array back to a
width-`heads*dK` vector, row-major. -/
def mergeHeads {heads dK : ℕ} (y : Fin heads → Fin dK → ℝ) :
    Fin (heads * dK) → ℝ :=
  fun f => y (unmergeHead f) (unmergeDim f)

/-! ## PrepareForMultiHeadAttention -/

/-- PrepareForMultiHeadAttention.__call__: linear transform of the last axis
followed by the head-split reshape.  `W`, `b` are the learned parameters of
`self.linear` (bias-free construction passes `b = 0`). -/
def prepareForMultiHeadAttention (dModel heads dK : ℕ)
    (W : Fin (heads * dK) → Fin dModel → ℝ) (b : Fin (heads * dK) → ℝ)
    {seqLen batch : ℕ} (x : Fin seqLen → Fin batch → Fin dModel → ℝ) :
    Fin seqLen → Fin batch → Fin heads → Fin dK → ℝ :=
  fun s bi => splitHeads (linearMap dModel (heads * dK) W b (x s bi))

/-! ## MultiHeadAttention: construction -/

/-- The state MultiHeadAttention.__init__ stores: `self.heads`,
`self.d_k = d_model // heads` (floor division, no divisibility assert in the
source), the dropout probability of `self.dropout`, and
`self.scale = 1 / math.sqrt(self.d_k)`. -/
structure MHAState where
  heads : ℕ
  d_k : ℕ
  dropoutProb : ℚ
  scale : ℝ

/-- MultiHeadAttention.__init__ for given `heads`, `d_model`, `dropout_prob`.
It is total: the source performs no check that `heads` divides `d_model`. -/
def mkMHA (heads dModel : ℕ) (p : ℚ) : MHAState :=
  { heads := heads
    d_k := dModel / heads
    dropoutProb := p
    scale := 1 / Real.sqrt ((dModel / heads : ℕ) : ℝ) }

/-! ## Forward-pass stages -/

/-- get_scores: `torch.einsum('ibhd,jbhd->ijbh', query, key)`. -/
def get_scores {seqQ seqK batch heads dK : ℕ}
    (query : Fin seqQ → Fin batch → Fin heads → Fin dK → ℝ)
    (key : Fin seqK → Fin batch → Fin heads → Fin dK → ℝ) :
    Fin seqQ → Fin seqK → Fin batch → Fin heads → ℝ :=
  fun i j b h => ∑ d, query i b h d * key j b h d

/-- The projected-and-scaled scores: `self.get_scores(...) * self.scale`
after the three PrepareForMultiHeadAttention projections. -/
def scaledScores (st : MHAState) (dModel : ℕ)
    (Wq : Fin (st.heads * st.d_k) → Fin dModel → ℝ) (bq : Fin (st.heads * st.d_k) → ℝ)
    (Wk : Fin (st.heads * st.d_k) → Fin dModel → ℝ) (bk : Fin (st.heads * st.d_k) → ℝ)
    {seqQ seqK batch : ℕ}
    (query : Fin seqQ → Fin batch → Fin dModel → ℝ)
    (key : Fin seqK → Fin batch → Fin dModel → ℝ) :
    Fin seqQ → Fin seqK → Fin batch → Fin st.heads → ℝ :=
  fun i j b h => st.scale *
    get_scores (prepareForMultiHeadAttention dModel st.heads st.d_k Wq bq query)
      (prepareForMultiHeadAttention dModel st.heads st.d_k Wk bk key) i j b h

/-- `scores.masked_fill(mask == 0, -1e9)`: where the (broadcast-resolved)
mask is false the entry becomes the large negative sentinel. -/
def maskedFill {seqQ seqK batch heads : ℕ}
    (mf : Fin seqQ → Fin seqK → Fin batch → Bool)
    (s : Fin seqQ → Fin seqK → Fin batch → Fin heads → ℝ) :
    Fin seqQ → Fin seqK → Fin batch → Fin heads → ℝ :=
  fun i j b h => if mf i j b then s i j b h else (-1e9 : ℝ)

/-- `F.softmax(scores, dim=1)`: softmax strictly along the key-position axis
`j` of the `[seq_len_q, seq_len_k, batch_size, heads]` score tensor. -/
def softmaxKey {seqQ seqK batch heads : ℕ}
    (s : Fin seqQ → Fin seqK → Fin batch → Fin heads → ℝ) :
    Fin seqQ → Fin seqK → Fin batch → Fin heads → ℝ :=
  fun i j b h => Real.exp (s i j b h) / ∑ j2, Real.exp (s i j2 b h)

/-- nn.Dropout applied to the attention tensor.  `r` supplies the Bernoulli
draws (`true` = dropped); the native kernel returns the input unchanged when
`p == 0` or the module is in evaluation mode, otherwise it zeroes dropped
entries and rescales survivors by `1/(1-p)`. -/
def dropoutTensor {seqQ seqK batch heads : ℕ} (training : Bool) (p : ℚ)
    (r : ℕ → ℕ → ℕ → ℕ → Bool)
    (x : Fin seqQ → Fin seqK → Fin batch → Fin heads → ℝ) :
    Fin seqQ → Fin seqK → Fin batch → Fin heads → ℝ :=
  if training = true ∧ p ≠ 0 then
    fun i j b h => if r i.1 j.1 b.1 h.1 then 0 else x i j b h / (1 - (p : ℝ))
  else x

/-! ## The mask tensor and its broadcast resolution -/

/-- A PyTorch mask tensor together with its shape
`[maskQ, maskK, maskB]`; `vals` is read only inside those bounds. -/
structure MaskTensor where
  maskQ : ℕ
  maskK : ℕ
  maskB : ℕ
  vals : ℕ → ℕ → ℕ → Bool

/-- Broadcast index resolution: a size-1 axis reads index 0. -/
def bcIdx (n : ℕ) (i : ℕ) : ℕ := if n = 1 then 0 else i

/-- The mask as seen by `masked_fill` after `mask.unsqueeze(-1)` and
broadcasting against the `[seqQ, seqK, batch, heads]` scores (the trailing
size-1 head axis broadcasts over every head, so `h` is ignored). -/
def resolveMask (m : MaskTensor) (seqQ seqK batch : ℕ) :
    Fin seqQ → Fin seqK → Fin batch → Bool :=
  fun i j b => m.vals (bcIdx m.maskQ i.1) (bcIdx m.maskK j.1) (bcIdx m.maskB b.1)

/-- Legality of broadcasting the unsqueezed mask against the scores: every
mask axis must be 1 or match the corresponding score axis.  Violation is a
runtime error inside `masked_fill`. -/
def maskBroadcastOK (m : MaskTensor) (seqQ seqK batch : ℕ) : Prop :=
  (m.maskQ = 1 ∨ m.maskQ = seqQ) ∧ (m.maskK = 1 ∨ m.maskK = seqK) ∧
    (m.maskB = 1 ∨ m.maskB = batch)

instance (m : MaskTensor) (seqQ seqK batch : ℕ) :
    Decidable (maskBroadcastOK m seqQ seqK batch) := by
  unfold maskBroadcastOK; infer_instance

/-! ## Forward pass -/

/-- Everything the forward computation leaves behind: the returned output
tensor, the attention tensor emitted to `tracker.debug` (pre-dropout), and
the attention tensor retained on the instance as `self.attn` (post-dropout,
detached). -/
structure MHAResult (seqQ seqK batch heads dModel : ℕ) where
  output : Fin seqQ → Fin batch → Fin dModel → ℝ
  emittedAttn : Fin seqQ → Fin seqK → Fin batch → Fin heads → ℝ
  storedAttn : Fin seqQ → Fin seqK → Fin batch → Fin heads → ℝ

/-- The scores after optional masking (steps 4-5 of the pipeline). -/
def maskedScores (st : MHAState) (dModel : ℕ)
    (Wq : Fin (st.heads * st.d_k) → Fin dModel → ℝ) (bq : Fin (st.heads * st.d_k) → ℝ)
    (Wk : Fin (st.heads * st.d_k) → Fin dModel → ℝ) (bk : Fin (st.heads * st.d_k) → ℝ)
    {seqQ seqK batch : ℕ}
    (query : Fin seqQ → Fin batch → Fin dModel → ℝ)
    (key : Fin seqK → Fin batch → Fin dModel → ℝ)
    (maskF : Option (Fin seqQ → Fin seqK → Fin batch → Bool)) :
    Fin seqQ → Fin seqK → Fin batch → Fin st.heads → ℝ :=
  match maskF with
  | none => scaledScores st dModel Wq bq Wk bk query key
  | some mf => maskedFill mf (scaledScores st dModel Wq bq Wk bk query key)

/-- The post-dropout weighted aggregation of values:
`torch.einsum("ijbh,jbhd->ibhd", attn, value)` with `attn` post-dropout. -/
def mhaAggregate {seqQ seqK batch heads dK : ℕ}
    (attnD : Fin seqQ → Fin seqK → Fin batch → Fin heads → ℝ)
    (v : Fin seqK → Fin batch → Fin heads → Fin dK → ℝ) :
    Fin seqQ → Fin batch → Fin heads → Fin dK → ℝ :=
  fun i b h d => ∑ j, attnD i j b h * v j b h d

/-- The core of MultiHeadAttention.__call__ after mask resolution.  `maskF`
is the broadcast-resolved mask (or `none`).  The output linear layer
`self.output` is an `nn.Linear(d_model, d_model)`; feeding it the merged
heads (width `heads*d_k`) is a runtime shape error unless
`heads * d_k = d_model`, which the `dite` models. -/
def mhaCore (st : MHAState) (dModel : ℕ)
    (Wq : Fin (st.heads * st.d_k) → Fin dModel → ℝ) (bq : Fin (st.heads * st.d_k) → ℝ)
    (Wk : Fin (st.heads * st.d_k) → Fin dModel → ℝ) (bk : Fin (st.heads * st.d_k) → ℝ)
    (Wv : Fin (st.heads * st.d_k) → Fin dModel → ℝ) (bv : Fin (st.heads * st.d_k) → ℝ)
    (Wo : Fin dModel → Fin dModel → ℝ) (bo : Fin dModel → ℝ)
    (training : Bool) (dropMask : ℕ → ℕ → ℕ → ℕ → Bool)
    {seqQ seqK batch : ℕ}
    (query : Fin seqQ → Fin batch → Fin dModel → ℝ)
    (key : Fin seqK → Fin batch → Fin dModel → ℝ)
    (value : Fin seqK → Fin batch → Fin dModel → ℝ)
    (maskF : Option (Fin seqQ → Fin seqK → Fin batch → Bool)) :
    Option (MHAResult seqQ seqK batch st.heads dModel) :=
  if hE : st.heads * st.d_k = dModel then
    some
      { output := fun i b =>
          linearMap dModel dModel Wo bo (fun f =>
            mergeHeads
              (mhaAggregate
                (dropoutTensor training st.dropoutProb dropMask
                  (softmaxKey (maskedScores st dModel Wq bq Wk bk query key maskF)))
                (prepareForMultiHeadAttention dModel st.heads st.d_k Wv bv value)
                i b)
              (Fin.cast hE.symm f))
        emittedAttn := softmaxKey (maskedScores st dModel Wq bq Wk bk query key maskF)
        storedAttn :=
          dropoutTensor training st.dropoutProb dropMask
            (softmaxKey (maskedScores st dModel Wq bq Wk bk query key maskF)) }
  else none

/-- MultiHeadAttention.__call__.  With a supplied mask it first runs the
source's assert `mask.shape[0] == 1 or mask.shape[0] == mask.shape[1]`, then
(inside `masked_fill`) the broadcast-legality check, then the core. -/
def mhaForward (st : MHAState) (dModel : ℕ)
    (Wq : Fin (st.heads * st.d_k) → Fin dModel → ℝ) (bq : Fin (st.heads * st.d_k) → ℝ)
    (Wk : Fin (st.heads * st.d_k) → Fin dModel → ℝ) (bk : Fin (st.heads * st.d_k) → ℝ)
    (Wv : Fin (st.heads * st.d_k) → Fin dModel → ℝ) (bv : Fin (st.heads * st.d_k) → ℝ)
    (Wo : Fin dModel → Fin dModel → ℝ) (bo : Fin dModel → ℝ)
    (training : Bool) (dropMask : ℕ → ℕ → ℕ → ℕ → Bool)
    {seqQ seqK batch : ℕ}
    (query : Fin seqQ → Fin batch → Fin dModel → ℝ)
    (key : Fin seqK → Fin batch → Fin dModel → ℝ)
    (value : Fin seqK → Fin batch → Fin dModel → ℝ)
    (mask : Option MaskTensor) :
    Option (MHAResult seqQ seqK batch st.heads dModel) :=
  match mask with
  | none =>
      mhaCore st dModel Wq bq Wk bk Wv bv Wo bo training dropMask
        query key value none
  | some m =>
      if m.maskQ = 1 ∨ m.maskQ = m.maskK then
        if maskBroadcastOK m seqQ seqK batch then
          mhaCore st dModel Wq bq Wk bk Wv bv Wo bo training dropMask
            query key value (some (resolveMask m seqQ seqK batch))
        else none
      else none

/-! ## Helper lemmas -/

/-- Dropout is the identity when `p = 0` or in evaluation mode. -/
theorem dropoutTensor_disabled {seqQ seqK batch heads : ℕ}
    {training : Bool} {p : ℚ} (h : training = false ∨ p = 0)
    (r : ℕ → ℕ → ℕ → ℕ → Bool)
    (x : Fin seqQ → Fin seqK → Fin batch → Fin heads → ℝ) :
    dropoutTensor training p r x = x := by
  unfold dropoutTensor
  rcases h with h | h <;> simp [h]

/-- The softmax denominator is positive whenever there is at least one key. -/
theorem softmax_denom_pos {seqK : ℕ} (hK : 0 < seqK) (f : Fin seqK → ℝ) :
    0 < ∑ j, Real.exp (f j) :=
  Finset.sum_pos (fun j _ => Real.exp_pos (f j)) ⟨⟨0, hK⟩, Finset.mem_univ _⟩

/-- Each row of `softmaxKey` sums to 1 along the key axis. -/
theorem softmaxKey_sum {seqQ seqK batch heads : ℕ} (hK : 0 < seqK)
    (s : Fin seqQ → Fin seqK → Fin batch → Fin heads → ℝ)
    (i : Fin seqQ) (b : Fin batch) (h : Fin heads) :
    ∑ j, softmaxKey s i j b h = 1 := by
  unfold softmaxKey
  rw [← Finset.sum_div]
  exact div_self (ne_of_gt (softmax_denom_pos hK (fun j2 => s i j2 b h)))

/-- Every entry of `softmaxKey` is strictly positive (when keys exist). -/
theorem softmaxKey_pos {seqQ seqK batch heads : ℕ} (hK : 0 < seqK)
    (s : Fin seqQ → Fin seqK → Fin batch → Fin heads → ℝ)
    (i : Fin seqQ) (j : Fin seqK) (b : Fin batch) (h : Fin heads) :
    0 < softmaxKey s i j b h :=
  div_pos (Real.exp_pos _) (softmax_denom_pos hK (fun j2 => s i j2 b h))

/-- Splitting a flat feature index and re-flattening gives it back. -/
theorem headIdx_unmerge {heads dK : ℕ} (f : Fin (heads * dK)) :
    headIdx (unmergeHead f) (unmergeDim f) = f := by
  unfold headIdx unmergeHead unmergeDim
  apply Fin.ext
  simp only
  rw [Nat.mul_comm (f.1 / dK) dK]
  exact Nat.div_add_mod f.1 dK

/-! ## C7: round-trip reshape law -/

/-- C7: the head-split reshape in PrepareForMultiHeadAttention followed by
the head-concatenation reshape of the forward pass, with an identity
aggregation step in between, reproduces the original per-position vector
exactly, for every tensor of shape `[seq_len, batch_size, heads*d_k]`. -/
theorem C7_reshape_roundtrip {heads dK seqLen batch : ℕ}
    (x : Fin seqLen → Fin batch → Fin (heads * dK) → ℝ) :
    (fun s b => mergeHeads (splitHeads (x s b))) = x := by
  funext s b f
  show splitHeads (x s b) (unmergeHead f) (unmergeDim f) = x s b f
  unfold splitHeads
  rw [headIdx_unmerge]

/-! ## C9: the scale factor -/

/-- C9: construction stores the scale factor `1 / sqrt d_k` with
`d_k = d_model / heads`, and at the literal reference point `d_k = 64`
(e.g. `heads = 8`, `d_model = 512`) the stored scale equals `0.125`. -/
theorem C9_scale_factor (heads dModel : ℕ) (p : ℚ) :
    (mkMHA heads dModel p).scale = 1 / Real.sqrt ((mkMHA heads dModel p).d_k) ∧
    (mkMHA 8 512 p).d_k = 64 ∧ (mkMHA 8 512 p).scale = 0.125 := by
  refine ⟨rfl, rfl, ?_⟩
  show (1 : ℝ) / Real.sqrt ((512 / 8 : ℕ) : ℝ) = 0.125
  rw [show ((512 / 8 : ℕ) : ℝ) = (8 : ℝ) ^ 2 by norm_num]
  rw [Real.sqrt_sq (by norm_num : (0 : ℝ) ≤ 8)]
  norm_num

/-! ## C2: construction with `heads` not dividing `d_model` -/

/-- C1 counterexample: the claim says the entry validation accepts exactly
`mask_q = 1` or `mask_q = seq_len_q`.  Take cross-attention with
`seq_len_q = 2`, `seq_len_k = 3`, and the spec-shaped all-true mask
`[mask_q = 2, seq_len_k = 3, batch = 1]`.  Here `mask_q = seq_len_q`, so the
claim says the validation passes and the computation proceeds; but the
source's assert compares `mask.shape[0]` against `mask.shape[1]` (the
key-length axis), `2 ≠ 1` and `2 ≠ 3`, so the forward call fails. -/
theorem C1_counterexample :
    mhaForward (mkMHA 1 1 (1/10)) 1 (fun _ _ => 0) (fun _ => 0)
      (fun _ _ => 0) (fun _ => 0) (fun _ _ => 0) (fun _ => 0)
      (fun _ _ => 0) (fun _ => 0) false (fun _ _ _ _ => false)
      (fun (_ : Fin 2) (_ : Fin 1) _ => (0 : ℝ))
      (fun (_ : Fin 3) (_ : Fin 1) _ => (0 : ℝ))
      (fun (_ : Fin 3) (_ : Fin 1) _ => (0 : ℝ))
      (some ⟨2, 3, 1, fun _ _ _ => true⟩) = none := by
  simp [mhaForward]

/-- C1 amended: the entry assert checks `mask_q = 1 ∨ mask_q = mask_k`
(the mask's own key-length axis, `mask.shape[1]`) — not `seq_len_q`.  A
violation fails the computation immediately; when the assert passes and the
mask is broadcast-compatible with the scores (and the configuration is
consistent), the computation proceeds. -/
theorem C1_amended (st : MHAState) (dModel : ℕ)
    (Wq : Fin (st.heads * st.d_k) → Fin dModel → ℝ) (bq : Fin (st.heads * st.d_k) → ℝ)
    (Wk : Fin (st.heads * st.d_k) → Fin dModel → ℝ) (bk : Fin (st.heads * st.d_k) → ℝ)
    (Wv : Fin (st.heads * st.d_k) → Fin dModel → ℝ) (bv : Fin (st.heads * st.d_k) → ℝ)
    (Wo : Fin dModel → Fin dModel → ℝ) (bo : Fin dModel → ℝ)
    (training : Bool) (dropMask : ℕ → ℕ → ℕ → ℕ → Bool)
    {seqQ seqK batch : ℕ}
    (query : Fin seqQ → Fin batch → Fin dModel → ℝ)
    (key : Fin seqK → Fin batch → Fin dModel → ℝ)
    (value : Fin seqK → Fin batch → Fin dModel → ℝ)
    (m : MaskTensor) :
    (¬(m.maskQ = 1 ∨ m.maskQ = m.maskK) →
      mhaForward st dModel Wq bq Wk bk Wv bv Wo bo training dropMask
        query key value (some m) = none) ∧
    ((m.maskQ = 1 ∨ m.maskQ = m.maskK) → maskBroadcastOK m seqQ seqK batch →
      st.heads * st.d_k = dModel →
      (mhaForward st dModel Wq bq Wk bk Wv bv Wo bo training dropMask
        query key value (some m)).isSome = true) := by
  constructor
  · intro h
    show (if m.maskQ = 1 ∨ m.maskQ = m.maskK then _ else none) = none
    rw [if_neg h]
  · intro h1 h2 hE
    show (if m.maskQ = 1 ∨ m.maskQ = m.maskK then
        if maskBroadcastOK m seqQ seqK batch then _ else none else none).isSome = true
    rw [if_pos h1, if_pos h2]
    show (mhaCore st dModel Wq bq Wk bk Wv bv Wo bo training dropMask
        query key value (some (resolveMask m seqQ seqK batch))).isSome = true
    unfold mhaCore
    rw [dif_pos hE]
    rfl

/-- C1 amended, witness: the assert rejects a well-broadcastable
`[2, 3, 1]` mask in a `seq_len_q = 2`, `seq_len_k = 3` call (first leg), and
accepts a square `[2, 2, 1]` self-attention mask (second leg). -/
theorem C1_witness :
    (¬((2 : ℕ) = 1 ∨ (2 : ℕ) = 3) ∧
      mhaForward (mkMHA 1 1 (1/10)) 1 (fun _ _ => 0) (fun _ => 0)
        (fun _ _ => 0) (fun _ => 0) (fun _ _ => 0) (fun _ => 0)
        (fun _ _ => 0) (fun _ => 0) true (fun _ _ _ _ => false)
        (fun (_ : Fin 2) (_ : Fin 1) _ => (1 : ℝ))
        (fun (_ : Fin 3) (_ : Fin 1) _ => (1 : ℝ))
        (fun (_ : Fin 3) (_ : Fin 1) _ => (1 : ℝ))
        (some ⟨2, 3, 1, fun _ _ _ => false⟩) = none) ∧
    (mhaForward (mkMHA 1 1 (1/10)) 1 (fun _ _ => 0) (fun _ => 0)
      (fun _ _ => 0) (fun _ => 0) (fun _ _ => 0) (fun _ => 0)
      (fun _ _ => 0) (fun _ => 0) true (fun _ _ _ _ => false)
      (fun (_ : Fin 2) (_ : Fin 1) _ => (1 : ℝ))
      (fun (_ : Fin 2) (_ : Fin 1) _ => (1 : ℝ))
      (fun (_ : Fin 2) (_ : Fin 1) _ => (1 : ℝ))
      (some ⟨2, 2, 1, fun _ _ _ => true⟩)).isSome = true := by
  refine ⟨⟨by decide, ?_⟩, ?_⟩
  · exact (C1_amended (mkMHA 1 1 (1/10)) 1 _ _ _ _ _ _ _ _ true _ _ _ _
      ⟨2, 3, 1, fun _ _ _ => false⟩).1 (by decide)
  · exact (C1_amended (mkMHA 1 1 (1/10)) 1 _ _ _ _ _ _ _ _ true _ _ _ _
      ⟨2, 2, 1, fun _ _ _ => true⟩).2 (by decide) (by decide) (by decide)

/-! ## C5: output shape -/

/-- C5: for every valid input (a consistently-configured instance, query of
shape `[seq_len_q, batch, d_model]`, key/value of shape
`[seq_len_k, batch, d_model]`), the forward pass succeeds and returns an
output tensor of shape `[seq_len_q, batch, d_model]` — the shape is carried
by the type `Fin seqQ → Fin batch → Fin dModel → ℝ` of the witness. -/
theorem C5_output_shape (heads dModel : ℕ) (p : ℚ) (hdvd : heads ∣ dModel)
    (Wq : Fin ((mkMHA heads dModel p).heads * (mkMHA heads dModel p).d_k) → Fin dModel → ℝ)
    (bq : Fin ((mkMHA heads dModel p).heads * (mkMHA heads dModel p).d_k) → ℝ)
    (Wk : Fin ((mkMHA heads dModel p).heads * (mkMHA heads dModel p).d_k) → Fin dModel → ℝ)
    (bk : Fin ((mkMHA heads dModel p).heads * (mkMHA heads dModel p).d_k) → ℝ)
    (Wv : Fin ((mkMHA heads dModel p).heads * (mkMHA heads dModel p).d_k) → Fin dModel → ℝ)
    (bv : Fin ((mkMHA heads dModel p).heads * (mkMHA heads dModel p).d_k) → ℝ)
    (Wo : Fin dModel → Fin dModel → ℝ) (bo : Fin dModel → ℝ)
    (training : Bool) (dropMask : ℕ → ℕ → ℕ → ℕ → Bool)
    {seqQ seqK batch : ℕ}
    (query : Fin seqQ → Fin batch → Fin dModel → ℝ)
    (key : Fin seqK → Fin batch → Fin dModel → ℝ)
    (value : Fin seqK → Fin batch → Fin dModel → ℝ) :
    ∃ out : Fin seqQ → Fin batch → Fin dModel → ℝ,
      Option.map MHAResult.output
        (mhaForward (mkMHA heads dModel p) dModel Wq bq Wk bk Wv bv Wo bo
          training dropMask query key value none) = some out := by
  have hE : (mkMHA heads dModel p).heads * (mkMHA heads dModel p).d_k = dModel :=
    Nat.mul_div_cancel' hdvd
  have h0 : mhaForward (mkMHA heads dModel p) dModel Wq bq Wk bk Wv bv Wo bo
      training dropMask query key value none
      = mhaCore (mkMHA heads dModel p) dModel Wq bq Wk bk Wv bv Wo bo
        training dropMask query key value none := rfl
  rw [h0]
  unfold mhaCore
  rw [dif_pos hE]
  exact ⟨_, rfl⟩

/-- C5 witness at `heads = 2`, `d_model = 4`, unit sequence lengths. -/
theorem C5_witness :
    (2 : ℕ) ∣ 4 ∧
      ∃ out : Fin 1 → Fin 1 → Fin 4 → ℝ,
        Option.map MHAResult.output
          (mhaForward (mkMHA 2 4 (1/10)) 4 (fun _ _ => 0) (fun _ => 0)
            (fun _ _ => 0) (fun _ => 0) (fun _ _ => 0) (fun _ => 0)
            (fun _ _ => 0) (fun _ => 0) false (fun _ _ _ _ => false)
            (fun (_ : Fin 1) (_ : Fin 1) _ => (0 : ℝ))
            (fun (_ : Fin 1) (_ : Fin 1) _ => (0 : ℝ))
            (fun (_ : Fin 1) (_ : Fin 1) _ => (0 : ℝ)) none) = some out :=
  ⟨by decide, C5_output_shape 2 4 (1/10) (by decide) _ _ _ _ _ _ _ _ false _ _ _ _⟩

/-! ## C3: softmax rows sum to one -/

/-- C3: softmax is applied strictly along the key-position axis `j`; with no
mask, dropout disabled, and at least one key position, the attention-weight
vector over `j` produced by the forward pass sums to 1 for every
`(i, b, h)`. -/
theorem C3_softmax_rows_sum_to_one (st : MHAState) (dModel : ℕ)
    (Wq : Fin (st.heads * st.d_k) → Fin dModel → ℝ) (bq : Fin (st.heads * st.d_k) → ℝ)
    (Wk : Fin (st.heads * st.d_k) → Fin dModel → ℝ) (bk : Fin (st.heads * st.d_k) → ℝ)
    (Wv : Fin (st.heads * st.d_k) → Fin dModel → ℝ) (bv : Fin (st.heads * st.d_k) → ℝ)
    (Wo : Fin dModel → Fin dModel → ℝ) (bo : Fin dModel → ℝ)
    (training : Bool) (dropMask : ℕ → ℕ → ℕ → ℕ → Bool)
    {seqQ seqK batch : ℕ}
    (query : Fin seqQ → Fin batch → Fin dModel → ℝ)
    (key : Fin seqK → Fin batch → Fin dModel → ℝ)
    (value : Fin seqK → Fin batch → Fin dModel → ℝ)
    (hE : st.heads * st.d_k = dModel) (hK : 0 < seqK)
    (hDrop : training = false ∨ st.dropoutProb = 0) :
    ∃ res, mhaForward st dModel Wq bq Wk bk Wv bv Wo bo training dropMask
        query key value none = some res ∧
      ∀ (i : Fin seqQ) (b : Fin batch) (h : Fin st.heads),
        ∑ j, res.storedAttn i j b h = 1 := by
  show ∃ res, mhaCore st dModel Wq bq Wk bk Wv bv Wo bo training dropMask
      query key value none = some res ∧ _
  unfold mhaCore
  rw [dif_pos hE]
  refine ⟨_, rfl, ?_⟩
  intro i b h
  show ∑ j, dropoutTensor training st.dropoutProb dropMask
      (softmaxKey (maskedScores st dModel Wq bq Wk bk query key none)) i j b h = 1
  rw [dropoutTensor_disabled hDrop]
  exact softmaxKey_sum hK _ i b h

/-- C3 witness: unit configuration, zero weights, evaluation mode. -/
theorem C3_witness :
    ((mkMHA 1 1 0).heads * (mkMHA 1 1 0).d_k = 1 ∧ 0 < 1 ∧
        (false = false ∨ (mkMHA 1 1 0).dropoutProb = 0)) ∧
      ∃ res, mhaForward (mkMHA 1 1 0) 1 (fun _ _ => 0) (fun _ => 0)
          (fun _ _ => 0) (fun _ => 0) (fun _ _ => 0) (fun _ => 0)
          (fun _ _ => 0) (fun _ => 0) false (fun _ _ _ _ => false)
          (fun (_ : Fin 1) (_ : Fin 1) _ => (0 : ℝ))
          (fun (_ : Fin 1) (_ : Fin 1) _ => (0 : ℝ))
          (fun (_ : Fin 1) (_ : Fin 1) _ => (0 : ℝ)) none = some res ∧
        ∀ (i : Fin 1) (b : Fin 1) (h : Fin (mkMHA 1 1 0).heads),
          ∑ j, res.storedAttn i j b h = 1 :=
  ⟨⟨by decide, by decide, Or.inl rfl⟩,
    C3_softmax_rows_sum_to_one (mkMHA 1 1 0) 1 _ _ _ _ _ _ _ _ false _ _ _ _
      (by decide) (by decide) (Or.inl rfl)⟩

/-! ## C8: determinism with dropout disabled -/

/-- With dropout disabled the core ignores the randomness source. -/
theorem mhaCore_dropMask_irrelevant (st : MHAState) (dModel : ℕ)
    (Wq : Fin (st.heads * st.d_k) → Fin dModel → ℝ) (bq : Fin (st.heads * st.d_k) → ℝ)
    (Wk : Fin (st.heads * st.d_k) → Fin dModel → ℝ) (bk : Fin (st.heads * st.d_k) → ℝ)
    (Wv : Fin (st.heads * st.d_k) → Fin dModel → ℝ) (bv : Fin (st.heads * st.d_k) → ℝ)
    (Wo : Fin dModel → Fin dModel → ℝ) (bo : Fin dModel → ℝ)
    (training : Bool) (hDrop : training = false ∨ st.dropoutProb = 0)
    (r1 r2 : ℕ → ℕ → ℕ → ℕ → Bool)
    {seqQ seqK batch : ℕ}
    (query : Fin seqQ → Fin batch → Fin dModel → ℝ)
    (key : Fin seqK → Fin batch → Fin dModel → ℝ)
    (value : Fin seqK → Fin batch → Fin dModel → ℝ)
    (maskF : Option (Fin seqQ → Fin seqK → Fin batch → Bool)) :
    mhaCore st dModel Wq bq Wk bk Wv bv Wo bo training r1 query key value maskF
      = mhaCore st dModel Wq bq Wk bk Wv bv Wo bo training r2 query key value maskF := by
  unfold mhaCore
  simp only [dropoutTensor_disabled hDrop]

/-- C8: with dropout disabled (probability 0 or evaluation mode) the forward
computation is deterministic — two calls with identical inputs, mask, and
weights but arbitrary (different) randomness sources return identical
results. -/
theorem C8_deterministic (st : MHAState) (dModel : ℕ)
    (Wq : Fin (st.heads * st.d_k) → Fin dModel → ℝ) (bq : Fin (st.heads * st.d_k) → ℝ)
    (Wk : Fin (st.heads * st.d_k) → Fin dModel → ℝ) (bk : Fin (st.heads * st.d_k) → ℝ)
    (Wv : Fin (st.heads * st.d_k) → Fin dModel → ℝ) (bv : Fin (st.heads * st.d_k) → ℝ)
    (Wo : Fin dModel → Fin dModel → ℝ) (bo : Fin dModel → ℝ)
    (training : Bool) (hDrop : training = false ∨ st.dropoutProb = 0)
    (r1 r2 : ℕ → ℕ → ℕ → ℕ → Bool)
    {seqQ seqK batch : ℕ}
    (query : Fin seqQ → Fin batch → Fin dModel → ℝ)
    (key : Fin seqK → Fin batch → Fin dModel → ℝ)
    (value : Fin seqK → Fin batch → Fin dModel → ℝ)
    (mask : Option MaskTensor) :
    mhaForward st dModel Wq bq Wk bk Wv bv Wo bo training r1 query key value mask
      = mhaForward st dModel Wq bq Wk bk Wv bv Wo bo training r2 query key value mask := by
  cases mask with
  | none =>
      exact mhaCore_dropMask_irrelevant st dModel Wq bq Wk bk Wv bv Wo bo
        training hDrop r1 r2 query key value none
  | some m =>
      have h0 : ∀ r : ℕ → ℕ → ℕ → ℕ → Bool,
          mhaForward st dModel Wq bq Wk bk Wv bv Wo bo training r
            query key value (some m)
          = (if m.maskQ = 1 ∨ m.maskQ = m.maskK then
              if maskBroadcastOK m seqQ seqK batch then
                mhaCore st dModel Wq bq Wk bk Wv bv Wo bo training r
                  query key value (some (resolveMask m seqQ seqK batch))
              else none
            else none) := fun r => rfl
      rw [h0 r1, h0 r2]
      by_cases h1 : m.maskQ = 1 ∨ m.maskQ = m.maskK
      · by_cases h2 : maskBroadcastOK m seqQ seqK batch
        · simp only [if_pos h1, if_pos h2]
          exact mhaCore_dropMask_irrelevant st dModel Wq bq Wk bk Wv bv Wo bo
            training hDrop r1 r2 query key value _
        · simp only [if_pos h1, if_neg h2]
      · simp only [if_neg h1]

/-- C8 witness: evaluation mode, two opposite randomness sources, equal
results. -/
theorem C8_witness :
    (false = false ∨ (mkMHA 2 4 (1/10)).dropoutProb = 0) ∧
      mhaForward (mkMHA 2 4 (1/10)) 4 (fun _ _ => 0) (fun _ => 0)
        (fun _ _ => 0) (fun _ => 0) (fun _ _ => 0) (fun _ => 0)
        (fun _ _ => 0) (fun _ => 0) false (fun _ _ _ _ => true)
        (fun (_ : Fin 1) (_ : Fin 1) _ => (1 : ℝ))
        (fun (_ : Fin 1) (_ : Fin 1) _ => (1 : ℝ))
        (fun (_ : Fin 1) (_ : Fin 1) _ => (1 : ℝ)) none
      = mhaForward (mkMHA 2 4 (1/10)) 4 (fun _ _ => 0) (fun _ => 0)
        (fun _ _ => 0) (fun _ => 0) (fun _ _ => 0) (fun _ => 0)
        (fun _ _ => 0) (fun _ => 0) false (fun _ _ _ _ => false)
        (fun (_ : Fin 1) (_ : Fin 1) _ => (1 : ℝ))
        (fun (_ : Fin 1) (_ : Fin 1) _ => (1 : ℝ))
        (fun (_ : Fin 1) (_ : Fin 1) _ => (1 : ℝ)) none :=
  ⟨Or.inl rfl,
    C8_deterministic (mkMHA 2 4 (1/10)) 4 _ _ _ _ _ _ _ _ false (Or.inl rfl)
      (fun _ _ _ _ => true) (fun _ _ _ _ => false) _ _ _ none⟩

/-! ## C10: emitted vs. retained attention tensors -/

/-- C10: the tensor emitted to the observer hook (tracker.debug) is the
pre-dropout softmax output; the tensor retained on the instance (self.attn)
is the post-dropout tensor; in training mode with nonzero dropout
probability the retained tensor can differ from the emitted one (here: a
randomness source that drops every entry). -/
theorem C10_attn_side_channels (st : MHAState) (dModel : ℕ)
    (Wq : Fin (st.heads * st.d_k) → Fin dModel → ℝ) (bq : Fin (st.heads * st.d_k) → ℝ)
    (Wk : Fin (st.heads * st.d_k) → Fin dModel → ℝ) (bk : Fin (st.heads * st.d_k) → ℝ)
    (Wv : Fin (st.heads * st.d_k) → Fin dModel → ℝ) (bv : Fin (st.heads * st.d_k) → ℝ)
    (Wo : Fin dModel → Fin dModel → ℝ) (bo : Fin dModel → ℝ)
    (training : Bool) (dropMask : ℕ → ℕ → ℕ → ℕ → Bool)
    {seqQ seqK batch : ℕ}
    (query : Fin seqQ → Fin batch → Fin dModel → ℝ)
    (key : Fin seqK → Fin batch → Fin dModel → ℝ)
    (value : Fin seqK → Fin batch → Fin dModel → ℝ)
    (hE : st.heads * st.d_k = dModel)
    (hT : training = true) (hp : st.dropoutProb ≠ 0)
    (hr : ∀ i j b h, dropMask i j b h = true)
    (hQ : 0 < seqQ) (hK : 0 < seqK) (hB : 0 < batch) (hH : 0 < st.heads) :
    ∃ res, mhaForward st dModel Wq bq Wk bk Wv bv Wo bo training dropMask
        query key value none = some res ∧
      res.emittedAttn
        = softmaxKey (maskedScores st dModel Wq bq Wk bk query key none) ∧
      res.storedAttn
        = dropoutTensor training st.dropoutProb dropMask res.emittedAttn ∧
      res.storedAttn ≠ res.emittedAttn := by
  have h0 : mhaForward st dModel Wq bq Wk bk Wv bv Wo bo training dropMask
      query key value none
      = mhaCore st dModel Wq bq Wk bk Wv bv Wo bo training dropMask
        query key value none := rfl
  rw [h0]
  unfold mhaCore
  rw [dif_pos hE]
  refine ⟨_, rfl, rfl, rfl, ?_⟩
  intro hcontra
  have h1 : dropoutTensor training st.dropoutProb dropMask
        (softmaxKey (maskedScores st dModel Wq bq Wk bk query key none))
        ⟨0, hQ⟩ ⟨0, hK⟩ ⟨0, hB⟩ ⟨0, hH⟩
      = softmaxKey (maskedScores st dModel Wq bq Wk bk query key none)
        ⟨0, hQ⟩ ⟨0, hK⟩ ⟨0, hB⟩ ⟨0, hH⟩ := by
    have := congrFun (congrFun (congrFun (congrFun hcontra ⟨0, hQ⟩) ⟨0, hK⟩) ⟨0, hB⟩) ⟨0, hH⟩
    exact this
  have h2 : dropoutTensor training st.dropoutProb dropMask
        (softmaxKey (maskedScores st dModel Wq bq Wk bk query key none))
        ⟨0, hQ⟩ ⟨0, hK⟩ ⟨0, hB⟩ ⟨0, hH⟩ = 0 := by
    unfold dropoutTensor
    rw [if_pos ⟨hT, hp⟩]
    simp [hr]
  have h3 : 0 < softmaxKey (maskedScores st dModel Wq bq Wk bk query key none)
      ⟨0, hQ⟩ ⟨0, hK⟩ ⟨0, hB⟩ ⟨0, hH⟩ :=
    softmaxKey_pos hK _ _ _ _ _
  rw [h2] at h1
  exact absurd h1.symm (ne_of_gt h3)

/-- C10 witness: unit configuration, training mode, dropout probability 1/2,
a randomness source that drops everything. -/
theorem C10_witness :
    ((mkMHA 1 1 (1/2)).heads * (mkMHA 1 1 (1/2)).d_k = 1 ∧
        (mkMHA 1 1 (1/2)).dropoutProb ≠ 0) ∧
      ∃ res, mhaForward (mkMHA 1 1 (1/2)) 1 (fun _ _ => 0) (fun _ => 0)
          (fun _ _ => 0) (fun _ => 0) (fun _ _ => 0) (fun _ => 0)
          (fun _ _ => 0) (fun _ => 0) true (fun _ _ _ _ => true)
          (fun (_ : Fin 1) (_ : Fin 1) _ => (1 : ℝ))
          (fun (_ : Fin 1) (_ : Fin 1) _ => (1 : ℝ))
          (fun (_ : Fin 1) (_ : Fin 1) _ => (1 : ℝ)) none = some res ∧
        res.emittedAttn
          = softmaxKey (maskedScores (mkMHA 1 1 (1/2)) 1 (fun _ _ => 0) (fun _ => 0)
              (fun _ _ => 0) (fun _ => 0)
              (fun (_ : Fin 1) (_ : Fin 1) _ => (1 : ℝ))
              (fun (_ : Fin 1) (_ : Fin 1) _ => (1 : ℝ)) none) ∧
        res.storedAttn
          = dropoutTensor true (mkMHA 1 1 (1/2)).dropoutProb (fun _ _ _ _ => true)
              res.emittedAttn ∧
        res.storedAttn ≠ res.emittedAttn :=
  ⟨⟨by decide, by norm_num [mkMHA]⟩,
    C10_attn_side_channels (mkMHA 1 1 (1/2)) 1 _ _ _ _ _ _ _ _ true _ _ _ _
      (by decide) rfl (by norm_num [mkMHA]) (fun _ _ _ _ => rfl)
      (by decide) (by decide) (by decide) (by decide)⟩

/-! ## C4: masked key positions -/

/-- A broadcast index into an axis of matching extent is the identity. -/
theorem bcIdx_fin {n : ℕ} (i : Fin n) : bcIdx n i.1 = i.1 := by
  unfold bcIdx
  by_cases h : n = 1
  · rw [if_pos h]
    have := i.isLt
    omega
  · rw [if_neg h]

/-- A mask whose shape matches the scores exactly resolves pointwise. -/
theorem resolveMask_exact {seqQ seqK batch : ℕ} (m : MaskTensor)
    (hmq : m.maskQ = seqQ) (hmk : m.maskK = seqK) (hmb : m.maskB = batch)
    (i : Fin seqQ) (j : Fin seqK) (b : Fin batch) :
    resolveMask m seqQ seqK batch i j b = m.vals i.1 j.1 b.1 := by
  unfold resolveMask
  rw [hmq, hmk, hmb, bcIdx_fin i, bcIdx_fin j, bcIdx_fin b]

/-- C4: for every forward call with a mask — of any shape the source admits,
including the `mask_q = 1` broadcast form — whose broadcast evaluation
excludes key position `j0` for every query in batch `b`: (i) every score
entry where the mask evaluates to false is replaced by the sentinel `-1e9`
before normalization, and (ii) the post-softmax weight at every
`(i, j0, b, h)` is nonnegative and at most `exp (B - 1e9)` — vanishingly
small — provided each `(i, h)` row retains at least one admissible key whose
scaled score is at least `-B` (the "within floating-point tolerance" reading
of approximately 0, which a finite sentinel forces to be relative to the
live scores). -/
theorem C4_masked_weight_vanishes (st : MHAState) (dModel : ℕ)
    (Wq : Fin (st.heads * st.d_k) → Fin dModel → ℝ) (bq : Fin (st.heads * st.d_k) → ℝ)
    (Wk : Fin (st.heads * st.d_k) → Fin dModel → ℝ) (bk : Fin (st.heads * st.d_k) → ℝ)
    (Wv : Fin (st.heads * st.d_k) → Fin dModel → ℝ) (bv : Fin (st.heads * st.d_k) → ℝ)
    (Wo : Fin dModel → Fin dModel → ℝ) (bo : Fin dModel → ℝ)
    (training : Bool) (dropMask : ℕ → ℕ → ℕ → ℕ → Bool)
    {seqQ seqK batch : ℕ}
    (query : Fin seqQ → Fin batch → Fin dModel → ℝ)
    (key : Fin seqK → Fin batch → Fin dModel → ℝ)
    (value : Fin seqK → Fin batch → Fin dModel → ℝ)
    (m : MaskTensor)
    (h1 : m.maskQ = 1 ∨ m.maskQ = m.maskK)
    (h2 : maskBroadcastOK m seqQ seqK batch)
    (hE : st.heads * st.d_k = dModel)
    (j0 : Fin seqK) (b : Fin batch)
    (hexc : ∀ i : Fin seqQ, resolveMask m seqQ seqK batch i j0 b = false)
    (B : ℝ)
    (htol : ∀ (i : Fin seqQ) (h : Fin st.heads), ∃ j1 : Fin seqK,
      resolveMask m seqQ seqK batch i j1 b = true ∧
        -B ≤ scaledScores st dModel Wq bq Wk bk query key i j1 b h) :
    (∀ (i : Fin seqQ) (j : Fin seqK) (h : Fin st.heads),
      resolveMask m seqQ seqK batch i j b = false →
      maskedFill (resolveMask m seqQ seqK batch)
        (scaledScores st dModel Wq bq Wk bk query key) i j b h = -1e9) ∧
    ∃ res, mhaForward st dModel Wq bq Wk bk Wv bv Wo bo training dropMask
        query key value (some m) = some res ∧
      ∀ (i : Fin seqQ) (h : Fin st.heads),
        0 ≤ res.emittedAttn i j0 b h ∧
          res.emittedAttn i j0 b h ≤ Real.exp (B - 1e9) := by
  have hfill : ∀ (i : Fin seqQ) (j : Fin seqK) (h : Fin st.heads),
      resolveMask m seqQ seqK batch i j b = false →
      maskedFill (resolveMask m seqQ seqK batch)
        (scaledScores st dModel Wq bq Wk bk query key) i j b h = -1e9 := by
    intro i j h hfalse
    unfold maskedFill
    rw [hfalse]
    simp
  refine ⟨hfill, ?_⟩
  have h0 : mhaForward st dModel Wq bq Wk bk Wv bv Wo bo training dropMask
      query key value (some m)
      = mhaCore st dModel Wq bq Wk bk Wv bv Wo bo training dropMask
        query key value (some (resolveMask m seqQ seqK batch)) := by
    have hstep : mhaForward st dModel Wq bq Wk bk Wv bv Wo bo training dropMask
        query key value (some m)
        = (if m.maskQ = 1 ∨ m.maskQ = m.maskK then
            if maskBroadcastOK m seqQ seqK batch then
              mhaCore st dModel Wq bq Wk bk Wv bv Wo bo training dropMask
                query key value (some (resolveMask m seqQ seqK batch))
            else none
          else none) := rfl
    rw [hstep, if_pos h1, if_pos h2]
  rw [h0]
  unfold mhaCore
  rw [dif_pos hE]
  refine ⟨_, rfl, ?_⟩
  intro i h
  have hK : 0 < seqK := lt_of_le_of_lt (Nat.zero_le _) j0.isLt
  constructor
  · exact le_of_lt (softmaxKey_pos hK _ _ _ _ _)
  · obtain ⟨j1, hj1v, hj1s⟩ := htol i h
    have hMj0 : maskedScores st dModel Wq bq Wk bk query key
        (some (resolveMask m seqQ seqK batch)) i j0 b h = -1e9 :=
      hfill i j0 h (hexc i)
    have hMj1 : maskedScores st dModel Wq bq Wk bk query key
        (some (resolveMask m seqQ seqK batch)) i j1 b h
        = scaledScores st dModel Wq bq Wk bk query key i j1 b h := by
      show maskedFill (resolveMask m seqQ seqK batch)
        (scaledScores st dModel Wq bq Wk bk query key) i j1 b h = _
      unfold maskedFill
      rw [hj1v]
      simp
    have hone : Real.exp (-B) ≤ Real.exp (maskedScores st dModel Wq bq Wk bk
        query key (some (resolveMask m seqQ seqK batch)) i j1 b h) := by
      rw [hMj1]
      exact Real.exp_le_exp.mpr hj1s
    have hZ : Real.exp (-B) ≤ ∑ j2, Real.exp (maskedScores st dModel Wq bq Wk bk
        query key (some (resolveMask m seqQ seqK batch)) i j2 b h) :=
      le_trans hone (Finset.single_le_sum
        (f := fun j2 => Real.exp (maskedScores st dModel Wq bq Wk bk query key
          (some (resolveMask m seqQ seqK batch)) i j2 b h))
        (fun j2 _ => le_of_lt (Real.exp_pos _)) (Finset.mem_univ j1))
    show softmaxKey (maskedScores st dModel Wq bq Wk bk query key
        (some (resolveMask m seqQ seqK batch))) i j0 b h ≤ Real.exp (B - 1e9)
    unfold softmaxKey
    rw [hMj0]
    calc Real.exp (-1e9) / ∑ j2, Real.exp (maskedScores st dModel Wq bq Wk bk
          query key (some (resolveMask m seqQ seqK batch)) i j2 b h)
        ≤ Real.exp (-1e9) / Real.exp (-B) := by
          gcongr
      _ = Real.exp (B - 1e9) := by
          rw [← Real.exp_sub]
          congr 1
          ring

/-- C4 witness: a broadcast mask of shape `[1, 2, 1]` (its single query row
broadcast across both query positions) that excludes key position 0, zero
weights (so every admissible scaled score is 0), tolerance `B = 0`. -/
theorem C4_witness :
    ((∀ i : Fin 2,
        resolveMask ⟨1, 2, 1, fun _ j _ => j == 1⟩ 2 2 1 i (0 : Fin 2) (0 : Fin 1)
          = false) ∧
      ∀ (i : Fin 2) (h : Fin (mkMHA 1 1 0).heads), ∃ j1 : Fin 2,
        resolveMask ⟨1, 2, 1, fun _ j _ => j == 1⟩ 2 2 1 i j1 (0 : Fin 1) = true ∧
          -(0:ℝ) ≤ scaledScores (mkMHA 1 1 0) 1 (fun _ _ => 0) (fun _ => 0)
            (fun _ _ => 0) (fun _ => 0)
            (fun (_ : Fin 2) (_ : Fin 1) _ => (1:ℝ))
            (fun (_ : Fin 2) (_ : Fin 1) _ => (1:ℝ)) i j1 0 h) ∧
    ((∀ (i j : Fin 2) (h : Fin (mkMHA 1 1 0).heads),
        resolveMask ⟨1, 2, 1, fun _ j _ => j == 1⟩ 2 2 1 i j (0 : Fin 1) = false →
        maskedFill (resolveMask ⟨1, 2, 1, fun _ j _ => j == 1⟩ 2 2 1)
          (scaledScores (mkMHA 1 1 0) 1 (fun _ _ => 0) (fun _ => 0)
            (fun _ _ => 0) (fun _ => 0)
            (fun (_ : Fin 2) (_ : Fin 1) _ => (1:ℝ))
            (fun (_ : Fin 2) (_ : Fin 1) _ => (1:ℝ))) i j 0 h = -1e9) ∧
      ∃ res, mhaForward (mkMHA 1 1 0) 1 (fun _ _ => 0) (fun _ => 0)
          (fun _ _ => 0) (fun _ => 0) (fun _ _ => 0) (fun _ => 0)
          (fun _ _ => 0) (fun _ => 0) false (fun _ _ _ _ => false)
          (fun (_ : Fin 2) (_ : Fin 1) _ => (1:ℝ))
          (fun (_ : Fin 2) (_ : Fin 1) _ => (1:ℝ))
          (fun (_ : Fin 2) (_ : Fin 1) _ => (1:ℝ))
          (some ⟨1, 2, 1, fun _ j _ => j == 1⟩) = some res ∧
        ∀ (i : Fin 2) (h : Fin (mkMHA 1 1 0).heads),
          0 ≤ res.emittedAttn i 0 0 h ∧
            res.emittedAttn i 0 0 h ≤ Real.exp ((0:ℝ) - 1e9)) := by
  have hscore : ∀ (i j1 : Fin 2) (h : Fin (mkMHA 1 1 0).heads),
      scaledScores (mkMHA 1 1 0) 1 (fun _ _ => 0) (fun _ => 0)
        (fun _ _ => 0) (fun _ => 0)
        (fun (_ : Fin 2) (_ : Fin 1) _ => (1:ℝ))
        (fun (_ : Fin 2) (_ : Fin 1) _ => (1:ℝ)) i j1 0 h = 0 := by
    intro i j1 h
    unfold scaledScores get_scores prepareForMultiHeadAttention splitHeads linearMap
    simp
  have htol : ∀ (i : Fin 2) (h : Fin (mkMHA 1 1 0).heads), ∃ j1 : Fin 2,
      resolveMask ⟨1, 2, 1, fun _ j _ => j == 1⟩ 2 2 1 i j1 (0 : Fin 1) = true ∧
        -(0:ℝ) ≤ scaledScores (mkMHA 1 1 0) 1 (fun _ _ => 0) (fun _ => 0)
          (fun _ _ => 0) (fun _ => 0)
          (fun (_ : Fin 2) (_ : Fin 1) _ => (1:ℝ))
          (fun (_ : Fin 2) (_ : Fin 1) _ => (1:ℝ)) i j1 0 h := by
    intro i h
    refine ⟨(1 : Fin 2), rfl, ?_⟩
    rw [hscore i 1 h]
    norm_num
  exact ⟨⟨fun i => rfl, htol⟩,
    C4_masked_weight_vanishes (mkMHA 1 1 0) 1 _ _ _ _ _ _ _ _ false
      (fun _ _ _ _ => false)
      (fun (_ : Fin 2) (_ : Fin 1) _ => (1:ℝ))
      (fun (_ : Fin 2) (_ : Fin 1) _ => (1:ℝ))
      (fun (_ : Fin 2) (_ : Fin 1) _ => (1:ℝ))
      ⟨1, 2, 1, fun _ j _ => j == 1⟩ (by decide) (by decide) (by decide) 0 0
      (fun i => rfl) 0 htol⟩

/-! ## C6: single query / single key position -/

/-- Softmax over a single key position is identically 1. -/
theorem softmaxKey_single {seqQ batch heads : ℕ}
    (s : Fin seqQ → Fin 1 → Fin batch → Fin heads → ℝ)
    (i : Fin seqQ) (j : Fin 1) (b : Fin batch) (h : Fin heads) :
    softmaxKey s i j b h = 1 := by
  unfold softmaxKey
  rw [Fin.sum_univ_one, Subsingleton.elim j 0]
  exact div_self (Real.exp_ne_zero _)

/-- C6 counterexample: the claim quantifies over every forward call with
`seq_len_q = seq_len_k = 1`, which includes training mode with nonzero
dropout probability.  With `d_model = 1`, `heads = 1`, dropout probability
`1/2`, a draw that drops the single attention weight, value projection
weight 1 and output weight 1 on input value 1: the forward output is 0,
while the output linear transform applied to the linearly projected value is
1 — so the output does not equal it exactly. -/
theorem C6_counterexample :
    Option.map (fun r => MHAResult.output r 0 0 0)
      (mhaForward (mkMHA 1 1 (1/2)) 1 (fun _ _ => 0) (fun _ => 0)
        (fun _ _ => 0) (fun _ => 0) (fun _ _ => 1) (fun _ => 0)
        (fun _ _ => 1) (fun _ => 0) true (fun _ _ _ _ => true)
        (fun (_ : Fin 1) (_ : Fin 1) _ => (1 : ℝ))
        (fun (_ : Fin 1) (_ : Fin 1) _ => (1 : ℝ))
        (fun (_ : Fin 1) (_ : Fin 1) _ => (1 : ℝ)) none) = some 0 ∧
    linearMap 1 1 (fun _ _ => 1) (fun _ => 0)
      (fun f => mergeHeads
        (prepareForMultiHeadAttention 1 1 1 (fun _ _ => 1) (fun _ => 0)
          (fun (_ : Fin 1) (_ : Fin 1) _ => (1 : ℝ)) 0 0)
        (Fin.cast rfl f)) 0 = 1 ∧
    (0 : ℝ) ≠ 1 := by
  refine ⟨?_, ?_, by norm_num⟩
  · have h0 : mhaForward (mkMHA 1 1 (1/2)) 1 (fun _ _ => 0) (fun _ => 0)
        (fun _ _ => 0) (fun _ => 0) (fun _ _ => 1) (fun _ => 0)
        (fun _ _ => 1) (fun _ => 0) true (fun _ _ _ _ => true)
        (fun (_ : Fin 1) (_ : Fin 1) _ => (1 : ℝ))
        (fun (_ : Fin 1) (_ : Fin 1) _ => (1 : ℝ))
        (fun (_ : Fin 1) (_ : Fin 1) _ => (1 : ℝ)) none
        = mhaCore (mkMHA 1 1 (1/2)) 1 (fun _ _ => 0) (fun _ => 0)
          (fun _ _ => 0) (fun _ => 0) (fun _ _ => 1) (fun _ => 0)
          (fun _ _ => 1) (fun _ => 0) true (fun _ _ _ _ => true)
          (fun (_ : Fin 1) (_ : Fin 1) _ => (1 : ℝ))
          (fun (_ : Fin 1) (_ : Fin 1) _ => (1 : ℝ))
          (fun (_ : Fin 1) (_ : Fin 1) _ => (1 : ℝ)) none := rfl
    rw [h0]
    unfold mhaCore
    rw [dif_pos (by decide : (mkMHA 1 1 (1/2)).heads * (mkMHA 1 1 (1/2)).d_k = 1)]
    have hdropped : dropoutTensor true (mkMHA 1 1 (1/2)).dropoutProb
        (fun _ _ _ _ => true)
        (softmaxKey (maskedScores (mkMHA 1 1 (1/2)) 1 (fun _ _ => 0) (fun _ => 0)
          (fun _ _ => 0) (fun _ => 0)
          (fun (_ : Fin 1) (_ : Fin 1) _ => (1 : ℝ))
          (fun (_ : Fin 1) (_ : Fin 1) _ => (1 : ℝ)) none))
        = fun (_ : Fin 1) (_ : Fin 1) (_ : Fin 1)
            (_ : Fin (mkMHA 1 1 (1/2)).heads) => (0 : ℝ) := by
      unfold dropoutTensor
      rw [if_pos ⟨rfl, by norm_num [mkMHA]⟩]
      funext i j b h
      simp
    rw [Option.map_some', hdropped]
    congr 1
    show linearMap 1 1 (fun _ _ => 1) (fun _ => 0) _ 0 = 0
    simp [linearMap, mergeHeads, mhaAggregate, Fin.sum_univ_one]
  · simp [linearMap, mergeHeads, prepareForMultiHeadAttention, splitHeads,
      Fin.sum_univ_one]

/-- C6 amended: with `seq_len_q = seq_len_k = 1` and dropout disabled
(evaluation mode or probability 0), the single attention weight is exactly 1
and the forward output equals the output linear transform applied to the
head-merged, linearly projected value vector exactly. -/
theorem C6_amended (st : MHAState) (dModel : ℕ)
    (Wq : Fin (st.heads * st.d_k) → Fin dModel → ℝ) (bq : Fin (st.heads * st.d_k) → ℝ)
    (Wk : Fin (st.heads * st.d_k) → Fin dModel → ℝ) (bk : Fin (st.heads * st.d_k) → ℝ)
    (Wv : Fin (st.heads * st.d_k) → Fin dModel → ℝ) (bv : Fin (st.heads * st.d_k) → ℝ)
    (Wo : Fin dModel → Fin dModel → ℝ) (bo : Fin dModel → ℝ)
    (training : Bool) (dropMask : ℕ → ℕ → ℕ → ℕ → Bool)
    {batch : ℕ}
    (query key value : Fin 1 → Fin batch → Fin dModel → ℝ)
    (hE : st.heads * st.d_k = dModel)
    (hDrop : training = false ∨ st.dropoutProb = 0) :
    ∃ res, mhaForward st dModel Wq bq Wk bk Wv bv Wo bo training dropMask
        query key value none = some res ∧
      (∀ (i j : Fin 1) (b : Fin batch) (h : Fin st.heads),
        res.emittedAttn i j b h = 1) ∧
      (∀ (i : Fin 1) (b : Fin batch),
        res.output i b = linearMap dModel dModel Wo bo
          (fun f => mergeHeads
            (prepareForMultiHeadAttention dModel st.heads st.d_k Wv bv value i b)
            (Fin.cast hE.symm f))) := by
  have h0 : mhaForward st dModel Wq bq Wk bk Wv bv Wo bo training dropMask
      query key value none
      = mhaCore st dModel Wq bq Wk bk Wv bv Wo bo training dropMask
        query key value none := rfl
  rw [h0]
  unfold mhaCore
  rw [dif_pos hE]
  refine ⟨_, rfl, ?_, ?_⟩
  · intro i j b h
    exact softmaxKey_single _ i j b h
  · intro i b
    show linearMap dModel dModel Wo bo _ = _
    have hagg : mhaAggregate (dropoutTensor training st.dropoutProb dropMask
          (softmaxKey (maskedScores st dModel Wq bq Wk bk query key none)))
        (prepareForMultiHeadAttention dModel st.heads st.d_k Wv bv value) i b
        = prepareForMultiHeadAttention dModel st.heads st.d_k Wv bv value i b := by
      funext h d
      unfold mhaAggregate
      rw [dropoutTensor_disabled hDrop, Fin.sum_univ_one, softmaxKey_single,
        Subsingleton.elim (0 : Fin 1) i]
      ring
    rw [hagg]

/-- C6 amended, witness: unit configuration in evaluation mode. -/
theorem C6_witness :
    ((mkMHA 1 1 (1/2)).heads * (mkMHA 1 1 (1/2)).d_k = 1 ∧
        (false = false ∨ (mkMHA 1 1 (1/2)).dropoutProb = 0)) ∧
      ∃ res, mhaForward (mkMHA 1 1 (1/2)) 1 (fun _ _ => 0) (fun _ => 0)
          (fun _ _ => 0) (fun _ => 0) (fun _ _ => 1) (fun _ => 0)
          (fun _ _ => 1) (fun _ => 0) false (fun _ _ _ _ => true)
          (fun (_ : Fin 1) (_ : Fin 1) _ => (1 : ℝ))
          (fun (_ : Fin 1) (_ : Fin 1) _ => (1 : ℝ))
          (fun (_ : Fin 1) (_ : Fin 1) _ => (1 : ℝ)) none = some res ∧
        (∀ (i j : Fin 1) (b : Fin 1) (h : Fin (mkMHA 1 1 (1/2)).heads),
          res.emittedAttn i j b h = 1) ∧
        (∀ (i : Fin 1) (b : Fin 1),
          res.output i b = linearMap 1 1 (fun _ _ => 1) (fun _ => 0)
            (fun f => mergeHeads
              (prepareForMultiHeadAttention 1 (mkMHA 1 1 (1/2)).heads
                (mkMHA 1 1 (1/2)).d_k (fun _ _ => 1) (fun _ => 0)
                (fun (_ : Fin 1) (_ : Fin 1) _ => (1 : ℝ)) i b)
              (Fin.cast (by decide : (mkMHA 1 1 (1/2)).heads * (mkMHA 1 1 (1/2)).d_k = 1).symm f))) :=
  ⟨⟨by decide, Or.inl rfl⟩,
    C6_amended (mkMHA 1 1 (1/2)) 1 _ _ _ _ _ _ _ _ false _ _ _ _
      (by decide) (Or.inl rfl)⟩

end
